import Mathlib

/-!
Shallow embedding of the `slack-data-export` repository
(`src/main.py`, `src/const.py`): the rate-limited request invoker
`retry_on_rate_limit`, the file-download retry loop
`download_file_with_retry`, the cursor paginator (`fetch_next_cursor`
and the listing loops), the thread reconciliation of `get_messages`,
the checkpoint store (`save_progress` / `load_progress` /
`cleanup_progress`), the per-channel orchestration loop of `main`,
the tombstone filter of `save_files`, and the direct-message name
synthesis of `get_accessible_channels`.

Loops that repeatedly invoke a remote endpoint are run against an
explicit trace: a list whose `i`-th element is the outcome of the
`i`-th invocation the loop performs.  Sleeps are recorded as a list of
durations instead of blocking.
-/

namespace SlackDataExport

/-! ### Constants (src/const.py) -/

def ACCESS_WAIT : ℚ := 2
def CONVERSATIONS_ACCESS_WAIT : ℚ := 60
def IS_MARKETPLACE_APP : Bool := false
def EXPORT_BASE_PATH : String := "./export"
/-- `Const.MAX_RATE_LIMIT_RETRIES`: 0 means infinite retries. -/
def MAX_RATE_LIMIT_RETRIES : Nat := 0

/-! ### Rate-limited invoker (`retry_on_rate_limit`, main.py lines 23-79) -/

/-- A throttling error (`SlackApiError` whose response has
`error == "ratelimited"`): the optional integer `Retry-After` HTTP
header and the optional `retry_after` field of the error payload. -/
structure ThrottleErr where
  headerRetryAfter : Option Nat
  bodyRetryAfter : Option ℚ
deriving DecidableEq, Repr

/-- One invocation outcome of the wrapped thunk `func`. -/
inductive ApiOutcome (α : Type) where
  | ok (v : α)
  | ratelimited (e : ThrottleErr)
  | otherError
deriving DecidableEq, Repr

/-- Wait determination of main.py lines 52-61: default 60 seconds,
overridden by the `Retry-After` header when present, else by the
`retry_after` field of the error payload when present. -/
def baseRetryAfter (e : ThrottleErr) : ℚ :=
  match e.headerRetryAfter with
  | some h => (h : ℚ)
  | none =>
    match e.bodyRetryAfter with
    | some b => b
    | none => 60

/-- The duration slept for the `retryCount`-th throttled response
(main.py lines 52-66): the base wait, replaced by
`min(retry_after * 1.5 ** (retry_count - 5), 300)` when
`retry_count > 5`. -/
def rateLimitWait (retryCount : Nat) (e : ThrottleErr) : ℚ :=
  let retry_after := baseRetryAfter e
  if retryCount > 5 then min (retry_after * (3 / 2) ^ (retryCount - 5)) 300
  else retry_after

/-- Result of the retry loop: the returned value together with the
sleeps performed (in order), or the error raised.  `outOfResponses` is
model-only: the supplied outcome trace ended while the loop would have
invoked the thunk again. -/
inductive RetryResult (α : Type) where
  | ok (v : α) (sleeps : List ℚ)
  | exhaustedRetries
  | otherError
  | outOfResponses
deriving DecidableEq, Repr

/-- The `while True` loop of `retry_on_rate_limit` (main.py lines
38-79), run against a trace of thunk outcomes.  `retryCount` is the
retry counter accumulated so far (0 at entry); `maxRetries` is
`Const.MAX_RATE_LIMIT_RETRIES`.  On the `n`-th throttled response the
loop computes the wait, raises when the configured ceiling is reached
(`maxRetries > 0 ∧ n ≥ maxRetries`), else sleeps and re-invokes; a
non-rate-limit error is re-raised immediately. -/
def retry_on_rate_limit (maxRetries : Nat) :
    Nat → List (ApiOutcome α) → RetryResult α
  | _, [] => .outOfResponses
  | _, .ok v :: _ => .ok v []
  | retryCount, .ratelimited e :: rest =>
    let n := retryCount + 1
    let w := rateLimitWait n e
    if maxRetries > 0 ∧ n ≥ maxRetries then .exhaustedRetries
    else
      match retry_on_rate_limit maxRetries n rest with
      | .ok v sleeps => .ok v (w :: sleeps)
      | r => r
  | _, .otherError :: _ => .otherError

/-- The sleeps the invoker performs for a throttle sequence `ts` when
the retry counter starts at `k`: the `(k+i+1)`-th retry wait for the
`i`-th element. -/
def throttleWaits (k : Nat) : List ThrottleErr → List ℚ
  | [] => []
  | e :: rest => rateLimitWait (k + 1) e :: throttleWaits (k + 1) rest

lemma throttleWaits_length (ts : List ThrottleErr) :
    ∀ k, (throttleWaits k ts).length = ts.length := by
  induction ts with
  | nil => intro k; rfl
  | cons e rest ih => intro k; simp [throttleWaits, ih]

lemma throttleWaits_getElem (ts : List ThrottleErr) :
    ∀ k i, (throttleWaits k ts)[i]? =
      ts[i]?.map fun e => rateLimitWait (k + i + 1) e := by
  induction ts with
  | nil => intro k i; simp [throttleWaits]
  | cons e rest ih =>
    intro k i
    cases i with
    | zero => simp [throttleWaits]
    | succ j =>
      have h2 : k + 1 + j + 1 = k + (j + 1) + 1 := by omega
      simp only [throttleWaits, List.getElem?_cons_succ, ih (k + 1) j, h2]

lemma retry_on_rate_limit_trace {α : Type} (maxRetries : Nat) (v : α) :
    ∀ (ts : List ThrottleErr) (k : Nat),
      (maxRetries = 0 ∨ k + ts.length < maxRetries) →
      retry_on_rate_limit maxRetries k
          (ts.map .ratelimited ++ [.ok v]) =
        .ok v (throttleWaits k ts)
  | [], k, _ => rfl
  | e :: rest, k, h => by
    have hceil : ¬ (maxRetries > 0 ∧ k + 1 ≥ maxRetries) := by
      rcases h with h | h
      · omega
      · simp only [List.length_cons] at h; omega
    have ih := retry_on_rate_limit_trace maxRetries v rest (k + 1) (by
      rcases h with h | h
      · exact Or.inl h
      · right; simp only [List.length_cons] at h; omega)
    simp [retry_on_rate_limit, hceil, ih, throttleWaits]

/-- C1: for every sequence of throttled responses followed by a success
(within the configured retry ceiling), `retry_on_rate_limit` returns
the success after sleeping exactly once per throttled response; the
`i`-th sleep (1-based) is the integer `Retry-After` header value if
present, else the payload `retry_after`, else 60 seconds, replaced by
`min(wait * 1.5 ** (i - 5), 300)` exactly when `i > 5`
(`rateLimitWait`); the cumulative wait is the sum of these
per-response values. -/
theorem retry_on_rate_limit_sleeps {α : Type} (maxRetries : Nat)
    (ts : List ThrottleErr) (v : α)
    (h : maxRetries = 0 ∨ ts.length < maxRetries) :
    retry_on_rate_limit maxRetries 0 (ts.map .ratelimited ++ [.ok v]) =
      .ok v (throttleWaits 0 ts) ∧
    (throttleWaits 0 ts).length = ts.length ∧
    ∀ i, (throttleWaits 0 ts)[i]? =
      ts[i]?.map fun e => rateLimitWait (i + 1) e := by
  refine ⟨retry_on_rate_limit_trace maxRetries v ts 0 (by simpa using h),
    throttleWaits_length ts 0, fun i => ?_⟩
  simpa using throttleWaits_getElem ts 0 i

/-- Witness for C1: two throttled responses (one with no hint, one with
`Retry-After: 5`) followed by success. -/
theorem retry_on_rate_limit_sleeps_witness :
    ((0 : Nat) = 0 ∨ ([⟨none, none⟩, ⟨some 5, none⟩] : List ThrottleErr).length < 0) ∧
    (retry_on_rate_limit 0 0
        (([⟨none, none⟩, ⟨some 5, none⟩] : List ThrottleErr).map .ratelimited ++
          [.ok (7 : Nat)]) =
      .ok 7 (throttleWaits 0 [⟨none, none⟩, ⟨some 5, none⟩]) ∧
    (throttleWaits 0 ([⟨none, none⟩, ⟨some 5, none⟩] : List ThrottleErr)).length =
      ([⟨none, none⟩, ⟨some 5, none⟩] : List ThrottleErr).length ∧
    ∀ i, (throttleWaits 0 ([⟨none, none⟩, ⟨some 5, none⟩] : List ThrottleErr))[i]? =
      (([⟨none, none⟩, ⟨some 5, none⟩] : List ThrottleErr))[i]?.map
        fun e => rateLimitWait (i + 1) e) :=
  ⟨Or.inl rfl, retry_on_rate_limit_sleeps 0 [⟨none, none⟩, ⟨some 5, none⟩] 7 (Or.inl rfl)⟩

/-! ### File retriever (`download_file_with_retry`, main.py lines 82-152) -/

/-- One HTTP response observed by the download loop. -/
inductive HttpResponse where
  | success (content : String)
  | rateLimited (retryAfter : Option Nat)
  | otherStatus (code : Nat)
  | networkError
deriving DecidableEq, Repr

/-- The duration slept for the `retryCount`-th 429 response (main.py
lines 110-115): `int(response.headers.get('Retry-After', 60))`,
replaced by `min(retry_after * 2, 300)` when `retry_count > 5`. -/
def downloadRetryAfter (retryCount : Nat) (header : Option Nat) : Nat :=
  let retry_after := header.getD 60
  if retryCount > 5 then min (retry_after * 2) 300 else retry_after

/-- The duration slept for the `retryCount`-th network error (main.py
lines 138-144): `min(60 * retry_count, 300)` when `retry_count > 5`,
else a fixed 10 seconds. -/
def networkWait (retryCount : Nat) : Nat :=
  if retryCount > 5 then min (60 * retryCount) 300 else 10

/-- Result of the download loop: the body together with the sleeps
performed, or the failure raised.  `outOfResponses` is model-only. -/
inductive DownloadResult where
  | success (content : String) (sleeps : List Nat)
  | exhaustedRetries
  | httpError (code : Nat)
  | networkRaise
  | outOfResponses
deriving DecidableEq, Repr

/-- The `while True` loop of `download_file_with_retry` (main.py lines
97-152), run against a trace of HTTP outcomes.  Status 200 returns the
response; status 429 computes the retry wait, raises when the retry
ceiling is reached, else sleeps and retries; any other status raises
immediately; a network error uses the simpler wait schedule
(`networkWait`), raises at the ceiling, else sleeps and retries.  The
retry counter is shared between the 429 and network-error branches, as
in the source. -/
def download_file_with_retry (maxRetries : Nat) :
    Nat → List HttpResponse → DownloadResult
  | _, [] => .outOfResponses
  | _, .success c :: _ => .success c []
  | retryCount, .rateLimited h :: rest =>
    let n := retryCount + 1
    let w := downloadRetryAfter n h
    if maxRetries > 0 ∧ n ≥ maxRetries then .exhaustedRetries
    else
      match download_file_with_retry maxRetries n rest with
      | .success c sleeps => .success c (w :: sleeps)
      | r => r
  | _, .otherStatus code :: _ => .httpError code
  | retryCount, .networkError :: rest =>
    let n := retryCount + 1
    let w := networkWait n
    if maxRetries > 0 ∧ n ≥ maxRetries then .networkRaise
    else
      match download_file_with_retry maxRetries n rest with
      | .success c sleeps => .success c (w :: sleeps)
      | r => r

/-- Modelled from the spec's words for claim C7 (§4.4: "apply the same
>5-retries exponential-backoff/cap-300s rule as §4.1"): read the
retry-after duration (default 60 s) and, when the retry count exceeds
5, set `wait = min(wait * 1.5 ** (retries - 5), 300)`.  Compared
against the source's `downloadRetryAfter`. -/
def specDownloadRetryAfter (retryCount : Nat) (header : Option Nat) : ℚ :=
  let retry_after : ℚ := (header.getD 60 : Nat)
  if retryCount > 5 then min (retry_after * (3 / 2) ^ (retryCount - 5)) 300
  else retry_after

/-- Counterexample for C7: on the 6th consecutive 429 with no
`Retry-After` header, the source waits `min(60 * 2, 300) = 120`
seconds, while the claimed §4.1 rule gives
`min(60 * 1.5 ** 1, 300) = 90` seconds. -/
theorem download_backoff_cex :
    download_file_with_retry 0 0
        (List.replicate 6 (HttpResponse.rateLimited none) ++
          [HttpResponse.success "f"]) =
      .success "f" [60, 60, 60, 60, 60, 120] ∧
    specDownloadRetryAfter 6 none = 90 ∧
    ((120 : ℚ) ≠ 90) := by
  refine ⟨rfl, ?_, by norm_num⟩
  norm_num [specDownloadRetryAfter]

/-- The sleeps the download loop performs for a 429 sequence with
headers `hs` when the retry counter starts at `k`. -/
def downloadWaits (k : Nat) : List (Option Nat) → List Nat
  | [] => []
  | h :: rest => downloadRetryAfter (k + 1) h :: downloadWaits (k + 1) rest

lemma downloadWaits_length (hs : List (Option Nat)) :
    ∀ k, (downloadWaits k hs).length = hs.length := by
  induction hs with
  | nil => intro k; rfl
  | cons h rest ih => intro k; simp [downloadWaits, ih]

lemma downloadWaits_getElem (hs : List (Option Nat)) :
    ∀ k i, (downloadWaits k hs)[i]? =
      hs[i]?.map fun h => downloadRetryAfter (k + i + 1) h := by
  induction hs with
  | nil => intro k i; simp [downloadWaits]
  | cons h rest ih =>
    intro k i
    cases i with
    | zero => simp [downloadWaits]
    | succ j =>
      have h2 : k + 1 + j + 1 = k + (j + 1) + 1 := by omega
      simp only [downloadWaits, List.getElem?_cons_succ, ih (k + 1) j, h2]

lemma download_retry_trace (maxRetries : Nat) (c : String) :
    ∀ (hs : List (Option Nat)) (k : Nat),
      (maxRetries = 0 ∨ k + hs.length < maxRetries) →
      download_file_with_retry maxRetries k
          (hs.map HttpResponse.rateLimited ++ [.success c]) =
        .success c (downloadWaits k hs)
  | [], k, _ => rfl
  | h :: rest, k, hh => by
    have hceil : ¬ (maxRetries > 0 ∧ k + 1 ≥ maxRetries) := by
      rcases hh with hh | hh
      · omega
      · simp only [List.length_cons] at hh; omega
    have ih := download_retry_trace maxRetries c rest (k + 1) (by
      rcases hh with hh | hh
      · exact Or.inl hh
      · right; simp only [List.length_cons] at hh; omega)
    simp [download_file_with_retry, hceil, ih, downloadWaits]

/-- C7 (amended): on consecutive 429 responses followed by a success
(within the retry ceiling), `download_file_with_retry` sleeps once per
429; the `i`-th sleep (1-based) is the `Retry-After` header value,
defaulting to 60 seconds, replaced by `min(wait * 2, 300)` — not the
`1.5 ** (retries - 5)` rule of `retry_on_rate_limit` — exactly when
`i > 5`. -/
theorem download_rate_limit_sleeps (maxRetries : Nat)
    (hs : List (Option Nat)) (c : String)
    (h : maxRetries = 0 ∨ hs.length < maxRetries) :
    download_file_with_retry maxRetries 0
        (hs.map HttpResponse.rateLimited ++ [.success c]) =
      .success c (downloadWaits 0 hs) ∧
    (downloadWaits 0 hs).length = hs.length ∧
    ∀ i, (downloadWaits 0 hs)[i]? =
      hs[i]?.map fun hd => downloadRetryAfter (i + 1) hd := by
  refine ⟨download_retry_trace maxRetries c hs 0 (by simpa using h),
    downloadWaits_length hs 0, fun i => ?_⟩
  simpa using downloadWaits_getElem hs 0 i

/-- Witness for the amended C7: seven 429s with no header followed by
success; waits are 60 for the first five retries, then 120, 120. -/
theorem download_rate_limit_sleeps_witness :
    ((0 : Nat) = 0 ∨ (List.replicate 7 (none : Option Nat)).length < 0) ∧
    (download_file_with_retry 0 0
        ((List.replicate 7 (none : Option Nat)).map HttpResponse.rateLimited ++
          [.success "f"]) =
      .success "f" (downloadWaits 0 (List.replicate 7 none)) ∧
    (downloadWaits 0 (List.replicate 7 (none : Option Nat))).length =
      (List.replicate 7 (none : Option Nat)).length ∧
    ∀ i, (downloadWaits 0 (List.replicate 7 (none : Option Nat)))[i]? =
      (List.replicate 7 (none : Option Nat))[i]?.map
        fun hd => downloadRetryAfter (i + 1) hd) :=
  ⟨Or.inl rfl,
    download_rate_limit_sleeps 0 (List.replicate 7 none) "f" (Or.inl rfl)⟩

/-! ### Cursor paginator (`fetch_next_cursor`, main.py lines 417-424,
and the listing loop of `get_accessible_channels`, lines 266-285) -/

/-- The `response_metadata` object: the `next_cursor` key may be
absent. -/
structure RespMeta where
  next_cursor : Option String
deriving DecidableEq, Repr

/-- A cursor-paginated listing response: a page of items plus the
optional `response_metadata`. -/
structure ListResponse (α : Type) where
  items : List α
  response_metadata : Option RespMeta := none
deriving DecidableEq, Repr

/-- `fetch_next_cursor` (main.py lines 417-424): the next cursor when
`response_metadata` is present, holds a `next_cursor` key, and that
cursor is truthy (non-empty); otherwise `None`. -/
def fetch_next_cursor (r : ListResponse α) : Option String :=
  match r.response_metadata with
  | some md =>
    match md.next_cursor with
    | some c => if c = "" then none else some c
    | none => none
  | none => none

/-- The `while True` pagination loop of `get_accessible_channels`
(main.py lines 269-285; the history and replies loops of
`get_messages` have the same shape), run against the trace of
responses the endpoint returns to the successive fetches.  Returns the
accumulated items and the number of fetches issued; `none` (model-only)
when the trace ends while a next cursor is still present. -/
def paginate : List (ListResponse α) → Option (List α × Nat)
  | [] => none
  | r :: rest =>
    match fetch_next_cursor r with
    | none => some (r.items, 1)
    | some _ =>
      match paginate rest with
      | some (acc, n) => some (r.items ++ acc, n + 1)
      | none => none

/-- C6: for every response sequence whose last page's pagination
metadata is exhausted (cursor absent, present-but-empty, or metadata
absent — all uniformly `none` under `fetch_next_cursor`) and whose
earlier pages each carry a cursor, the pagination loop returns the
concatenation of all pages' items in request order and issues exactly
one fetch per page. -/
theorem paginate_concat {α : Type} (init : List (ListResponse α))
    (last : ListResponse α)
    (h1 : ∀ r ∈ init, (fetch_next_cursor r).isSome)
    (h2 : fetch_next_cursor last = none) :
    paginate (init ++ [last]) =
      some ((init ++ [last]).flatMap ListResponse.items,
        (init ++ [last]).length) ∧
    (∀ items : List α,
      fetch_next_cursor ⟨items, none⟩ = none ∧
      fetch_next_cursor ⟨items, some ⟨none⟩⟩ = none ∧
      fetch_next_cursor ⟨items, some ⟨some ""⟩⟩ = none) := by
  refine ⟨?_, fun items => ⟨rfl, rfl, rfl⟩⟩
  induction init with
  | nil => simp [paginate, h2]
  | cons r rest ih =>
    have hr : (fetch_next_cursor r).isSome := h1 r (by simp)
    obtain ⟨c, hc⟩ := Option.isSome_iff_exists.mp hr
    have ihr := ih (fun x hx => h1 x (by simp [hx]))
    simp only [List.cons_append, paginate, hc, List.append_eq, ihr,
      List.flatMap_cons, List.length_cons, List.append_assoc]

/-- First page of the C6 witness: two items, next cursor `"c1"`. -/
def pageA : ListResponse String := ⟨["a", "b"], some ⟨some "c1"⟩⟩

/-- Second page of the C6 witness: one item, no metadata. -/
def pageB : ListResponse String := ⟨["c"], none⟩

/-- Witness for C6: a two-page channel listing, first page with cursor
`"c1"`, second page exhausted. -/
theorem paginate_concat_witness :
    (∀ r ∈ [pageA], (fetch_next_cursor r).isSome) ∧
    fetch_next_cursor pageB = none ∧
    (paginate ([pageA] ++ [pageB]) =
      some (([pageA] ++ [pageB]).flatMap ListResponse.items,
        ([pageA] ++ [pageB]).length) ∧
    (∀ items : List String,
      fetch_next_cursor ⟨items, none⟩ = none ∧
      fetch_next_cursor ⟨items, some ⟨none⟩⟩ = none ∧
      fetch_next_cursor ⟨items, some ⟨some ""⟩⟩ = none)) :=
  ⟨by decide, rfl, paginate_concat [pageA] pageB (by decide) rfl⟩

/-! ### Thread reconciliation (`get_messages`, main.py lines 341-414) -/

/-- A file object attached to a message (the fields `save_files`
reads). -/
structure FileObj where
  id : String
  name : String
  url_private : String
  mode : String
deriving DecidableEq, Repr

/-- A Slack message, with the fields the engine inspects: the
timestamp `ts`, the optional thread reference `thread_ts`, and the
optional `files` list. -/
structure Message where
  ts : String
  thread_ts : Option String := none
  files : Option (List FileObj) := none
deriving DecidableEq, Repr

/-- The parent-message predicate of main.py line 376:
`"thread_ts" in x and x["thread_ts"] == x["ts"]`. -/
def isThreadParent (m : Message) : Bool :=
  decide (m.thread_ts = some m.ts)

/-- The reply filter of main.py line 395: `x["ts"] != x["thread_ts"]`.
Messages returned by `conversations_replies` always carry `thread_ts`
(the source indexes the key unconditionally). -/
def keepReply (m : Message) : Bool :=
  decide (some m.ts ≠ m.thread_ts)

/-- The inner `while True` loop of lines 379-406 for one thread:
from each fetched replies page, drop the messages equal to their own
thread-root reference (the parent itself) and append the rest, page
by page in cursor order. -/
def repliesFetched (pages : List (List Message)) : List Message :=
  pages.flatMap fun page => page.filter keepReply

lemma keepReply_not_parent {m : Message} (h : keepReply m = true) :
    isThreadParent m = false := by
  simp only [keepReply, decide_eq_true_eq] at h
  simp only [isThreadParent, decide_eq_false_iff_not]
  exact fun hc => h hc.symm

lemma filter_parent_repliesFetched (pages : List (List Message)) :
    (repliesFetched pages).filter isThreadParent = [] := by
  rw [List.filter_eq_nil_iff]
  intro m hm
  simp only [repliesFetched, List.mem_flatMap, List.mem_filter] at hm
  obtain ⟨page, _, _, hk⟩ := hm
  simp [keepReply_not_parent hk]

lemma countP_parent_repliesFetched (pages : List (List Message)) :
    (repliesFetched pages).countP isThreadParent = 0 := by
  rw [List.countP_eq_length_filter, filter_parent_repliesFetched]
  rfl

/-- The replies-fetch loop of main.py lines 374-406: a generator scans
the live `messages` list; each message satisfying the parent predicate
triggers a paginated replies fetch (keyed by its `thread_ts`, which
equals its `ts`), whose filtered messages are appended to the end of
the list and are themselves scanned later.  `fetch t` is the page
sequence `conversations_replies` returns for root timestamp `t`. -/
def collectThreads (fetch : String → List (List Message)) :
    List Message → List Message
  | [] => []
  | p :: rest =>
    if isThreadParent p then
      p :: collectThreads fetch (rest ++ repliesFetched (fetch p.ts))
    else
      p :: collectThreads fetch rest
termination_by l => (l.countP isThreadParent, l.length)
decreasing_by
  · apply Prod.Lex.left
    rw [List.countP_append, countP_parent_repliesFetched, List.countP_cons]
    simp_all
  · rw [List.countP_cons]
    simp_all
    apply Prod.Lex.right
    omega

/-- Thread reconciliation for one channel: the primary history list
followed by the replies-fetch loop. -/
def reconcileThreads (fetch : String → List (List Message))
    (history : List Message) : List Message :=
  collectThreads fetch history

/-- The merged list is the history followed by, for each parent in
history order, its fetched replies pages with the parent occurrences
dropped: exactly the messages whose `ts` equals their own `thread_ts`
are removed, every other fetched message is appended. -/
lemma collectThreads_eq (fetch : String → List (List Message))
    (l : List Message) :
    collectThreads fetch l =
      l ++ (l.filter isThreadParent).flatMap
        fun r => repliesFetched (fetch r.ts) := by
  suffices H : ∀ (n : Nat) (l : List Message),
      l.countP isThreadParent ≤ n →
      collectThreads fetch l =
        l ++ (l.filter isThreadParent).flatMap
          (fun r => repliesFetched (fetch r.ts)) from H _ l le_rfl
  intro n
  induction n with
  | zero =>
    intro l
    induction l with
    | nil => intro _; simp [collectThreads]
    | cons p rest ihl =>
      intro hl
      rw [List.countP_cons] at hl
      have hp : isThreadParent p = false := by
        by_contra hc
        simp only [Bool.not_eq_false] at hc
        simp [hc] at hl
      have hrest : rest.countP isThreadParent ≤ 0 := by omega
      rw [collectThreads, if_neg (by simp [hp]), ihl hrest]
      simp [List.filter_cons, hp]
  | succ n ihn =>
    intro l
    induction l with
    | nil => intro _; simp [collectThreads]
    | cons p rest ihl =>
      intro hl
      rw [List.countP_cons] at hl
      by_cases hp : isThreadParent p = true
      · have h1 : (rest ++ repliesFetched (fetch p.ts)).countP
            isThreadParent ≤ n := by
          rw [List.countP_append, countP_parent_repliesFetched]
          simp only [hp, if_pos] at hl
          omega
        rw [collectThreads, if_pos hp, ihn _ h1]
        rw [List.filter_append, filter_parent_repliesFetched,
          List.append_nil, List.filter_cons, if_pos hp,
          List.flatMap_cons]
        simp [List.append_assoc]
      · have hp' : isThreadParent p = false := by
          simpa using hp
        have h2 : rest.countP isThreadParent ≤ n + 1 := by
          simp only [hp', if_neg, Bool.false_eq_true, if_false] at hl
          omega
        rw [collectThreads, if_neg (by simp [hp']), ihl h2]
        simp [List.filter_cons, hp']

lemma repliesFetched_sublist (pages : List (List Message)) :
    List.Sublist (repliesFetched pages) pages.flatten := by
  induction pages with
  | nil => simp [repliesFetched]
  | cons p ps ih =>
    simp only [repliesFetched, List.flatMap_cons, List.flatten_cons] at *
    exact (List.filter_sublist _).append ih

lemma mem_repliesFetched {pages : List (List Message)} {m : Message} :
    m ∈ repliesFetched pages ↔ m ∈ pages.flatten ∧ keepReply m = true := by
  simp only [repliesFetched, List.mem_flatMap, List.mem_flatten,
    List.mem_filter]
  constructor
  · rintro ⟨page, hp, hm, hk⟩
    exact ⟨⟨page, hp, hm⟩, hk⟩
  · rintro ⟨⟨page, hp, hm⟩, hk⟩
    exact ⟨page, hp, hm, hk⟩

lemma keepReply_iff {m : Message} {t : String}
    (h : m.thread_ts = some t) : keepReply m = true ↔ m.ts ≠ t := by
  simp [keepReply, h]

lemma nodup_repliesBlock (fetch : String → List (List Message))
    (history : List Message)
    (hlink : ∀ r ∈ history, isThreadParent r = true →
      ∀ m ∈ (fetch r.ts).flatten, m.thread_ts = some r.ts)
    (hrnd : ∀ r ∈ history, isThreadParent r = true →
      (((fetch r.ts).flatten).map Message.ts).Nodup)
    (hpair : ∀ r₁ ∈ history, ∀ r₂ ∈ history,
      isThreadParent r₁ = true → isThreadParent r₂ = true →
      r₁.ts ≠ r₂.ts →
      ∀ m₁ ∈ (fetch r₁.ts).flatten, ∀ m₂ ∈ (fetch r₂.ts).flatten,
        m₁.ts ≠ r₁.ts → m₂.ts ≠ r₂.ts → m₁.ts ≠ m₂.ts) :
    ∀ rs : List Message,
      (∀ r ∈ rs, r ∈ history ∧ isThreadParent r = true) →
      (rs.map Message.ts).Nodup →
      (((rs.flatMap fun r => repliesFetched (fetch r.ts)).map
        Message.ts)).Nodup := by
  intro rs
  induction rs with
  | nil => intro _ _; simp
  | cons r rs ih =>
    intro hmem hnd'
    rw [List.flatMap_cons, List.map_append, List.nodup_append]
    obtain ⟨hrh, hrp⟩ := hmem r (List.mem_cons_self r rs)
    simp only [List.map_cons, List.nodup_cons] at hnd'
    refine ⟨?_, ih (fun x hx => hmem x (List.mem_cons_of_mem r hx))
      hnd'.2, ?_⟩
    · exact ((repliesFetched_sublist (fetch r.ts)).map Message.ts).nodup
        (hrnd r hrh hrp)
    · intro t ht ht'
      simp only [List.mem_map] at ht ht'
      obtain ⟨m, hm, hmt⟩ := ht
      obtain ⟨m', hm', hmt'⟩ := ht'
      simp only [List.mem_flatMap] at hm'
      obtain ⟨r', hr'rs, hm'r⟩ := hm'
      obtain ⟨hr'h, hr'p⟩ := hmem r' (List.mem_cons_of_mem r hr'rs)
      obtain ⟨hmflat, hmk⟩ := mem_repliesFetched.mp hm
      obtain ⟨hm'flat, hm'k⟩ := mem_repliesFetched.mp hm'r
      have hne : r.ts ≠ r'.ts := fun he => hnd'.1 (he ▸ List.mem_map.mpr
        ⟨r', hr'rs, rfl⟩)
      have h1 : m.ts ≠ r.ts :=
        (keepReply_iff (hlink r hrh hrp m hmflat)).mp hmk
      have h2 : m'.ts ≠ r'.ts :=
        (keepReply_iff (hlink r' hr'h hr'p m' hm'flat)).mp hm'k
      exact hpair r hrh r' hr'h hrp hr'p hne m hmflat m' hm'flat h1 h2
        (hmt.trans hmt'.symm)

/-- C2: under the remote-API guarantees — history timestamps are
distinct; every fetched reply of a thread references that thread's
root; reply timestamps within one thread are distinct; proper replies
do not collide with history timestamps nor (across distinct threads)
with each other — the merged list after the replies-fetch loop of
`get_messages` is the history followed by, per parent, exactly the
fetched messages whose `ts` differs from their own `thread_ts` (those
equal to it, i.e. the root already present from the primary fetch, are
dropped); it has no duplicate timestamps, and each thread root and
each proper reply occurs exactly once. -/
theorem reconcile_threads_no_dup
    (fetch : String → List (List Message)) (history : List Message)
    (hnd : (history.map Message.ts).Nodup)
    (hlink : ∀ r ∈ history, isThreadParent r = true →
      ∀ m ∈ (fetch r.ts).flatten, m.thread_ts = some r.ts)
    (hrnd : ∀ r ∈ history, isThreadParent r = true →
      (((fetch r.ts).flatten).map Message.ts).Nodup)
    (hdisj : ∀ r ∈ history, isThreadParent r = true →
      ∀ m ∈ (fetch r.ts).flatten, m.ts ≠ r.ts →
        m.ts ∉ history.map Message.ts)
    (hpair : ∀ r₁ ∈ history, ∀ r₂ ∈ history,
      isThreadParent r₁ = true → isThreadParent r₂ = true →
      r₁.ts ≠ r₂.ts →
      ∀ m₁ ∈ (fetch r₁.ts).flatten, ∀ m₂ ∈ (fetch r₂.ts).flatten,
        m₁.ts ≠ r₁.ts → m₂.ts ≠ r₂.ts → m₁.ts ≠ m₂.ts) :
    reconcileThreads fetch history =
      history ++ (history.filter isThreadParent).flatMap
        (fun r => repliesFetched (fetch r.ts)) ∧
    ((reconcileThreads fetch history).map Message.ts).Nodup ∧
    (∀ r ∈ history, isThreadParent r = true →
      ((reconcileThreads fetch history).map Message.ts).count r.ts = 1) ∧
    (∀ r ∈ history, isThreadParent r = true →
      ∀ m ∈ (fetch r.ts).flatten, m.ts ≠ r.ts →
        ((reconcileThreads fetch history).map Message.ts).count m.ts
          = 1) := by
  have heq : reconcileThreads fetch history =
      history ++ (history.filter isThreadParent).flatMap
        (fun r => repliesFetched (fetch r.ts)) :=
    collectThreads_eq fetch history
  have hroots : ∀ r ∈ history.filter isThreadParent,
      r ∈ history ∧ isThreadParent r = true := by
    intro r hr
    exact ⟨(List.mem_filter.mp hr).1, (List.mem_filter.mp hr).2⟩
  have hrootsnd : ((history.filter isThreadParent).map Message.ts).Nodup :=
    ((List.filter_sublist history).map Message.ts).nodup hnd
  have hRnd : (((history.filter isThreadParent).flatMap
      (fun r => repliesFetched (fetch r.ts))).map Message.ts).Nodup :=
    nodup_repliesBlock fetch history hlink hrnd hpair _ hroots hrootsnd
  have hDisj : ∀ t, t ∈ history.map Message.ts →
      t ∈ ((history.filter isThreadParent).flatMap
        (fun r => repliesFetched (fetch r.ts))).map Message.ts → False := by
    intro t hth htR
    simp only [List.mem_map, List.mem_flatMap] at htR
    obtain ⟨m, ⟨r, hr, hmr⟩, hmt⟩ := htR
    obtain ⟨hrh, hrp⟩ := hroots r hr
    obtain ⟨hmflat, hmk⟩ := mem_repliesFetched.mp hmr
    have h1 : m.ts ≠ r.ts :=
      (keepReply_iff (hlink r hrh hrp m hmflat)).mp hmk
    exact hdisj r hrh hrp m hmflat h1 (hmt ▸ hth)
  have hOut : ((reconcileThreads fetch history).map Message.ts).Nodup := by
    rw [heq, List.map_append, List.nodup_append]
    exact ⟨hnd, hRnd, hDisj⟩
  refine ⟨heq, hOut, ?_, ?_⟩
  · intro r hr hrp
    refine List.count_eq_one_of_mem hOut ?_
    rw [heq, List.map_append, List.mem_append]
    exact Or.inl (List.mem_map.mpr ⟨r, hr, rfl⟩)
  · intro r hr hrp m hm hmts
    refine List.count_eq_one_of_mem hOut ?_
    rw [heq, List.map_append, List.mem_append]
    refine Or.inr (List.mem_map.mpr ⟨m, ?_, rfl⟩)
    refine List.mem_flatMap.mpr ⟨r, List.mem_filter.mpr ⟨hr, hrp⟩, ?_⟩
    exact mem_repliesFetched.mpr
      ⟨hm, (keepReply_iff (hlink r hr hrp m hm)).mpr hmts⟩

/-- History of the C2 witness: one thread root at ts "100.0" and one
plain message at ts "200.0". -/
def historyW : List Message :=
  [{ ts := "100.0", thread_ts := some "100.0" }, { ts := "200.0" }]

/-- Replies oracle of the C2 witness: thread "100.0" has two reply
pages; the first page re-contains the root, as `conversations_replies`
does. -/
def fetchW (t : String) : List (List Message) :=
  if t = "100.0" then
    [[{ ts := "100.0", thread_ts := some "100.0" },
      { ts := "101.0", thread_ts := some "100.0" }],
     [{ ts := "102.0", thread_ts := some "100.0" }]]
  else []

/-- Witness for C2: the concrete two-page thread merge, with the root
kept exactly once and both replies appended. -/
theorem reconcile_threads_no_dup_witness :
    reconcileThreads fetchW historyW =
      historyW ++ (historyW.filter isThreadParent).flatMap
        (fun r => repliesFetched (fetchW r.ts)) ∧
    ((reconcileThreads fetchW historyW).map Message.ts).Nodup ∧
    (∀ r ∈ historyW, isThreadParent r = true →
      ((reconcileThreads fetchW historyW).map Message.ts).count r.ts = 1) ∧
    (∀ r ∈ historyW, isThreadParent r = true →
      ∀ m ∈ (fetchW r.ts).flatten, m.ts ≠ r.ts →
        ((reconcileThreads fetchW historyW).map Message.ts).count m.ts
          = 1) :=
  reconcile_threads_no_dup fetchW historyW (by decide) (by decide)
    (by decide) (by decide) (by decide)

/-! ### Tombstone filter (`save_files`, main.py lines 466-499) -/

/-- The attachments `save_files` passes to the file retriever: for
each message carrying a `files` key, the files whose `mode` is not
`"tombstone"` (main.py lines 475-477). -/
def save_files_downloads (messages : List Message) : List FileObj :=
  (messages.filterMap Message.files).flatMap
    fun files => files.filter fun fi => decide (fi.mode ≠ "tombstone")

/-- C9: for every input message set, no attachment handed to
`download_file_with_retry` by `save_files` has mode `"tombstone"`. -/
theorem save_files_no_tombstone (messages : List Message)
    (fi : FileObj) (h : fi ∈ save_files_downloads messages) :
    fi.mode ≠ "tombstone" := by
  simp only [save_files_downloads, List.mem_flatMap, List.mem_filter,
    decide_eq_true_eq] at h
  obtain ⟨files, _, _, hm⟩ := h
  exact hm

/-- Message list of the C9 witness: one message with a hosted file and
a tombstone file. -/
def messagesW : List Message :=
  [{ ts := "1.0",
     files := some [⟨"F1", "a.png", "u1", "hosted"⟩,
                    ⟨"F2", "b.png", "u2", "tombstone"⟩] }]

/-- Witness for C9: the hosted file is downloaded and indeed is not a
tombstone. -/
theorem save_files_no_tombstone_witness :
    (⟨"F1", "a.png", "u1", "hosted"⟩ : FileObj) ∈
      save_files_downloads messagesW ∧
    (⟨"F1", "a.png", "u1", "hosted"⟩ : FileObj).mode ≠ "tombstone" :=
  ⟨by decide,
    save_files_no_tombstone messagesW ⟨"F1", "a.png", "u1", "hosted"⟩
      (by decide)⟩

/-! ### Checkpoint store (`save_progress` / `load_progress` /
`cleanup_progress`, main.py lines 513-544) -/

/-- The progress dict: `main` reads the keys `users_fetched`,
`channels_fetched` and `processed_channels` with `.get` defaults, so a
dict with missing keys is a record with the default fields. -/
structure ProgressData where
  users_fetched : Bool := false
  channels_fetched : Bool := false
  processed_channels : List String := []
deriving DecidableEq, Repr

/-- A user record (the fields the engine reads). -/
structure User where
  id : String
  real_name : String
deriving DecidableEq, Repr

/-- A raw channel record from `conversations_list` (the fields the
engine reads; `name` and `user` may be absent). -/
structure RawChannel where
  id : String
  name : Option String := none
  is_im : Bool := false
  user : Option String := none
deriving DecidableEq, Repr

/-- Content of a file on disk.  `corrupt` stands for any content
`json.load` fails to parse. -/
inductive FileData where
  | progressJson (d : ProgressData)
  | usersJson (users : List User)
  | channelsJson (channels : List RawChannel)
  | corrupt
deriving DecidableEq, Repr

/-- The filesystem, as a partial map from path to content. -/
def FS : Type := String → Option FileData

/-- `os.path.join(Const.EXPORT_BASE_PATH, now)`. -/
def export_dir (now : String) : String := EXPORT_BASE_PATH ++ "/" ++ now

/-- `os.path.join(Const.EXPORT_BASE_PATH, f".progress_{now}.json")`. -/
def progress_path (now : String) : String :=
  EXPORT_BASE_PATH ++ "/.progress_" ++ now ++ ".json"

/-- Path of the saved user list. -/
def users_path (now : String) : String := export_dir now ++ "/users.json"

/-- Path of the saved channel list. -/
def channels_path (now : String) : String :=
  export_dir now ++ "/channels.json"

/-- `save_progress` (main.py lines 513-517): overwrite the session's
progress file with the JSON dump of the record. -/
def save_progress (now : String) (progress_data : ProgressData)
    (fs : FS) : FS :=
  fun p => if p = progress_path now then some (.progressJson progress_data)
    else fs p

/-- `load_progress` (main.py lines 520-536): when the session's
progress file exists, parse and return it (`json.load` raises on
corrupt content); otherwise return the empty dict — the scan for other
`.progress_` files on that path only logs a hint and has no data
effect. -/
def load_progress (now : String) (fs : FS) : Except String ProgressData :=
  match fs (progress_path now) with
  | some (.progressJson d) => .ok d
  | some _ => .error "JSONDecodeError"
  | none => .ok {}

/-- `cleanup_progress` (main.py lines 539-544): remove the session's
progress file when it exists. -/
def cleanup_progress (now : String) (fs : FS) : FS :=
  fun p => if p = progress_path now then none else fs p

/-- C4: checkpoint round-trip — for every session id and record,
`save_progress` then `load_progress` with the same session id returns
the same record, and `cleanup_progress` then `load_progress` returns
the empty record. -/
theorem progress_round_trip (now : String) (d : ProgressData) (fs : FS) :
    load_progress now (save_progress now d fs) = .ok d ∧
    load_progress now (cleanup_progress now fs) = .ok {} := by
  constructor <;> simp [load_progress, save_progress, cleanup_progress]

/-- A filesystem whose only file is a corrupt checkpoint for session
`"20250101_000000"`. -/
def corruptFS : FS :=
  fun p => if p = progress_path "20250101_000000" then some .corrupt
    else none

/-- Counterexample for C5: `load_progress` on an existing but corrupt
checkpoint raises `json.load`'s parse error instead of returning an
empty record. -/
theorem load_progress_corrupt_cex :
    load_progress "20250101_000000" corruptFS = .error "JSONDecodeError" ∧
    load_progress "20250101_000000" corruptFS ≠ .ok {} := by
  refine ⟨rfl, fun h => ?_⟩
  rw [show load_progress "20250101_000000" corruptFS =
    Except.error "JSONDecodeError" from rfl] at h
  exact Except.noConfusion h

/-- C5 (amended): for every explicit session id, `load_progress` on a
missing checkpoint is non-fatal and returns the empty record; on a
corrupt (unparseable) checkpoint it raises the JSON parse error. -/
theorem load_progress_missing_or_corrupt (now : String) (fs fs' : FS)
    (h : fs (progress_path now) = none)
    (h' : fs' (progress_path now) = some .corrupt) :
    load_progress now fs = .ok {} ∧
    load_progress now fs' = .error "JSONDecodeError" := by
  constructor <;> simp [load_progress, h, h']

/-- Witness for the amended C5: the empty filesystem and the corrupt
one. -/
theorem load_progress_missing_or_corrupt_witness :
    load_progress "20250101_000000" (fun _ => none) = .ok {} ∧
    load_progress "20250101_000000" corruptFS = .error "JSONDecodeError" :=
  load_progress_missing_or_corrupt "20250101_000000" (fun _ => none)
    corruptFS rfl rfl

/-! ### Per-channel orchestration loop (`main`, main.py lines 198-222) -/

/-- Outcome of the per-channel loop: the final
`processed_channels` list (the checkpoint saved last), the channel on
which the run failed (if any; the exception is re-raised and the loop
terminates), and the ids for which `get_messages` was invoked (each
such invocation issues at least one history call). -/
structure ChannelLoopOut where
  processed : List String
  failedAt : Option String
  fetched : List String
deriving DecidableEq, Repr

/-- The loop of main.py lines 200-222 over channel ids: a channel
already in `processed_channels` is skipped with no call; otherwise
`get_messages` (plus sort/save) runs — `procOk` says whether it
succeeds — and on success the id is appended to the checkpoint and
saved; on failure the error is re-raised, terminating the run with the
checkpoint from the last successful iteration. -/
def channelLoop (procOk : String → Bool) :
    List String → List String → ChannelLoopOut
  | [], processed => ⟨processed, none, []⟩
  | c :: rest, processed =>
    if c ∈ processed then channelLoop procOk rest processed
    else if procOk c then
      let out := channelLoop procOk rest (processed ++ [c])
      ⟨out.processed, out.failedAt, c :: out.fetched⟩
    else ⟨processed, some c, [c]⟩

/-- C3: completed channels are never re-fetched — every id recorded in
the checkpoint is skipped with zero history/replies calls; on a
failure at channel `c`, the saved checkpoint is exactly the input
checkpoint plus the channels completed this run (`c` itself is not
added, and the run terminates at `c`); and the first channel fetched
is the first channel of the listing not recorded as completed. -/
theorem channel_loop_checkpoint (procOk : String → Bool)
    (channels processed : List String) :
    (∀ cid ∈ processed,
      cid ∉ (channelLoop procOk channels processed).fetched) ∧
    (∀ c, (channelLoop procOk channels processed).failedAt = some c →
      c ∉ (channelLoop procOk channels processed).processed ∧
      (channelLoop procOk channels processed).processed ++ [c] =
        processed ++ (channelLoop procOk channels processed).fetched) ∧
    (channelLoop procOk channels processed).fetched.head? =
      (channels.filter fun c => decide (c ∉ processed)).head? := by
  induction channels generalizing processed with
  | nil => simp [channelLoop]
  | cons c rest ih =>
    by_cases hc : c ∈ processed
    · have h1 := ih processed
      rw [channelLoop, if_pos hc]
      refine ⟨h1.1, h1.2.1, ?_⟩
      rw [h1.2.2, List.filter_cons, if_neg (by simpa using hc)]
    · by_cases hp : procOk c = true
      · have h1 := ih (processed ++ [c])
        rw [channelLoop, if_neg hc, if_pos hp]
        refine ⟨?_, ?_, ?_⟩
        · intro cid hcid
          simp only [List.mem_cons, not_or]
          have : cid ∈ processed ++ [c] := by
            simp [List.mem_append, hcid]
          refine ⟨fun he => hc (he ▸ hcid), h1.1 cid this⟩
        · intro cf hcf
          obtain ⟨hnotin, heq⟩ := h1.2.1 cf hcf
          refine ⟨hnotin, ?_⟩
          rw [heq, List.append_assoc]
          rfl
        · simp [List.filter_cons, hc]
      · rw [channelLoop, if_neg hc, if_neg (by simpa using hp)]
        refine ⟨?_, ?_, ?_⟩
        · intro cid hcid
          simp only [List.mem_cons, List.not_mem_nil, or_false]
          exact fun he => hc (he ▸ hcid)
        · intro cf hcf
          obtain rfl : c = cf := by simpa using hcf
          exact ⟨hc, rfl⟩
        · simp [List.filter_cons, hc]

/-- Witness for C3: channels `["C1", "C2", "C3"]` with `"C1"` already
completed and `"C3"` failing: `"C1"` is skipped with no fetch, `"C2"`
completes, the run fails at `"C3"` with the checkpoint recording
exactly `["C1", "C2"]`. -/
theorem channel_loop_checkpoint_witness :
    (∀ cid ∈ ["C1"],
      cid ∉ (channelLoop (fun c => decide (c ≠ "C3"))
        ["C1", "C2", "C3"] ["C1"]).fetched) ∧
    (∀ c, (channelLoop (fun c => decide (c ≠ "C3"))
        ["C1", "C2", "C3"] ["C1"]).failedAt = some c →
      c ∉ (channelLoop (fun c => decide (c ≠ "C3"))
        ["C1", "C2", "C3"] ["C1"]).processed ∧
      (channelLoop (fun c => decide (c ≠ "C3"))
        ["C1", "C2", "C3"] ["C1"]).processed ++ [c] =
        ["C1"] ++ (channelLoop (fun c => decide (c ≠ "C3"))
          ["C1", "C2", "C3"] ["C1"]).fetched) ∧
    (channelLoop (fun c => decide (c ≠ "C3"))
        ["C1", "C2", "C3"] ["C1"]).fetched.head? =
      (["C1", "C2", "C3"].filter fun c => decide (c ∉ ["C1"])).head? :=
  channel_loop_checkpoint (fun c => decide (c ≠ "C3"))
    ["C1", "C2", "C3"] ["C1"]

/-! ### Direct-message name synthesis (`get_accessible_channels`,
main.py lines 289-297) and the orchestrator (`main`, lines 155-231) -/

/-- The uncaught Python exceptions the name synthesis can raise. -/
inductive PyErr where
  | indexError
  | keyError
deriving DecidableEq, Repr

/-- Python name of the exception. -/
def pyErrName : PyErr → String
  | .indexError => "IndexError"
  | .keyError => "KeyError"

/-- The DM-name expression of main.py line 295:
`"@" + [y for y in users if y["id"] == x["user"]][0]["real_name"]`.
With no users the comprehension is empty and `[0]` raises
`IndexError`; with users present but no `user` key, evaluating
`x["user"]` inside the comprehension raises `KeyError`; with no user
whose id matches, `[0]` raises `IndexError`. -/
def dm_channel_name (users : List User) (x : RawChannel) :
    Except PyErr String :=
  match users, x.user with
  | [], _ => .error .indexError
  | _ :: _, none => .error .keyError
  | _ :: _, some u =>
    match (users.filter fun y => decide (y.id = u)).head? with
    | none => .error .indexError
    | some y => .ok ("@" ++ y.real_name)

/-- The channel list comprehension of main.py lines 291-297: each
`is_im` channel gets its `name` replaced by the synthesized DM name;
other channels pass through unchanged; the first raising element
aborts the whole comprehension. -/
def synthChannels (users : List User) :
    List RawChannel → Except PyErr (List RawChannel)
  | [] => .ok []
  | x :: rest =>
    match (if x.is_im then
        (dm_channel_name users x).map fun n => { x with name := some n }
      else .ok x) with
    | .error e => .error e
    | .ok x' =>
      match synthChannels users rest with
      | .error e => .error e
      | .ok rest' => .ok (x' :: rest')

/-- `save_users` (main.py lines 315-325), restricted to its filesystem
effect. -/
def save_users (now : String) (users : List User) (fs : FS) : FS :=
  fun p => if p = users_path now then some (.usersJson users) else fs p

/-- `save_channels` (main.py lines 328-338), restricted to its
filesystem effect. -/
def save_channels (now : String) (channels : List RawChannel)
    (fs : FS) : FS :=
  fun p => if p = channels_path now then some (.channelsJson channels)
    else fs p

/-- `archive_data` (main.py lines 502-510): zips and then removes the
session's export tree (`shutil.rmtree`); the progress file lives
outside that tree and survives.  The produced zip is not modelled. -/
def archive_data (now : String) (fs : FS) : FS :=
  fun p => if p.startsWith (export_dir now) then none else fs p

/-- The remote endpoints: the `users_list` response (a single,
unpaginated call in `get_users`), the `conversations_list` page trace,
and the number of history/replies/download calls processing each
channel issues (at least one history call each). -/
structure Remote where
  usersResp : List User
  channelPages : List (ListResponse RawChannel)
  chanCalls : String → Nat

/-- Outcome of one `main` run: remote calls issued, the uncaught error
(if any), the channels processed this run, and the final
filesystem. -/
structure RunOut where
  calls : Nat
  error : Option String
  channelsProcessed : List String
  fs : FS

/-- The users stage of `main` (lines 182-188): fetch and persist when
the checkpoint lacks `users_fetched`, else reload the saved file.
Returns the user list, the remote calls issued, and the updated
filesystem. -/
def usersStage (remote : Remote) (now : String) (progress : ProgressData)
    (fs : FS) : Except String (List User × Nat × FS) :=
  if progress.users_fetched then
    match fs (users_path now) with
    | some (.usersJson us) => .ok (us, 0, fs)
    | some _ => .error "JSONDecodeError"
    | none => .error "FileNotFoundError"
  else
    .ok (remote.usersResp, 1,
      save_progress now { users_fetched := true }
        (save_users now remote.usersResp fs))

/-- The channels stage of `main` (lines 190-196, calling
`get_accessible_channels`): paginate the listing, synthesize DM names,
persist and advance the checkpoint; an uncaught synthesis exception
aborts the stage.  The error also carries the listing calls already
issued. -/
def channelsStage (remote : Remote) (now : String)
    (progress : ProgressData) (users : List User) (fs : FS) :
    Except (String × Nat) (List RawChannel × Nat × FS) :=
  if progress.channels_fetched then
    match fs (channels_path now) with
    | some (.channelsJson chans) => .ok (chans, 0, fs)
    | some _ => .error ("JSONDecodeError", 0)
    | none => .error ("FileNotFoundError", 0)
  else
    match paginate remote.channelPages with
    | none => .error ("model: channel page trace exhausted",
        remote.channelPages.length)
    | some (raw, n) =>
      match synthChannels users raw with
      | .error e => .error (pyErrName e, n)
      | .ok chans =>
        .ok (chans, n,
          save_progress now
            { users_fetched := true, channels_fetched := true }
            (save_channels now chans fs))

/-- `main` (main.py lines 155-231) with every per-channel processing
step succeeding (per-channel failure is modelled by `channelLoop`):
load the checkpoint, run the users and channels stages, process each
channel not recorded as completed (checkpointing after each — the
final filesystem keeps only the last overwrite), then archive the
session tree and delete the checkpoint.  The resume/initial-delay
distinction only affects sleeps and logging. -/
def mainModel (remote : Remote) (now : String) (fs₀ : FS) : RunOut :=
  match load_progress now fs₀ with
  | .error e => ⟨0, some e, [], fs₀⟩
  | .ok progress =>
    match usersStage remote now progress fs₀ with
    | .error e => ⟨0, some e, [], fs₀⟩
    | .ok (users, c₁, fs₁) =>
      match channelsStage remote now progress users fs₁ with
      | .error (e, n) => ⟨c₁ + n, some e, [], fs₁⟩
      | .ok (chans, c₂, fs₂) =>
        let toProcess := (chans.map RawChannel.id).filter
          fun cid => decide (cid ∉ progress.processed_channels)
        let c₃ := (toProcess.map remote.chanCalls).sum
        let fs₃ :=
          if toProcess.isEmpty then fs₂
          else save_progress now
            ⟨true, true, progress.processed_channels ++ toProcess⟩ fs₂
        ⟨c₁ + c₂ + c₃, none, toProcess,
          cleanup_progress now (archive_data now fs₃)⟩

/-- Remote of the C8 counterexample: no users, a single exhausted
channel page, no channels. -/
def remoteW : Remote := ⟨[], [⟨[], none⟩], fun _ => 1⟩

/-- The empty filesystem. -/
def emptyFS : FS := fun _ => none

/-- Counterexample for C8: run `main` to completion for session
`"20250101_000000"` (no error), then re-run with the same session id:
the second run issues 2 remote calls (`users_list` and
`conversations_list` again, since the checkpoint was deleted on
completion), not zero. -/
theorem rerun_same_session_cex :
    (mainModel remoteW "20250101_000000" emptyFS).error = none ∧
    (mainModel remoteW "20250101_000000"
      ((mainModel remoteW "20250101_000000" emptyFS).fs)).calls = 2 ∧
    (2 : Nat) ≠ 0 :=
  ⟨rfl, rfl, by decide⟩

/-- C8 (amended): after `main` runs to completion for a session id,
the checkpoint for that session is deleted, so re-running with the
same session id finds empty progress and re-issues the remote fetches
from scratch (at least the `users_list` call) instead of terminating
immediately with zero remote calls. -/
lemma mainModel_calls_pos (remote : Remote) (now : String) (fs : FS)
    (h : load_progress now fs = .ok {}) :
    1 ≤ (mainModel remote now fs).calls := by
  have husers : usersStage remote now {} fs =
      .ok (remote.usersResp, 1,
        save_progress now { users_fetched := true }
          (save_users now remote.usersResp fs)) := rfl
  rcases hchan : channelsStage remote now {} remote.usersResp
      (save_progress now { users_fetched := true }
        (save_users now remote.usersResp fs)) with
    ⟨e, n⟩ | ⟨chans, c₂, fs₂⟩ <;>
    · simp only [mainModel, h, husers, hchan]
      omega

theorem rerun_after_completion_refetches (remote : Remote)
    (now : String) (fs₀ : FS)
    (h : (mainModel remote now fs₀).error = none) :
    load_progress now ((mainModel remote now fs₀).fs) = .ok {} ∧
    1 ≤ (mainModel remote now
      ((mainModel remote now fs₀).fs)).calls := by
  rcases hload : load_progress now fs₀ with e | progress
  · simp [mainModel, hload] at h
  · rcases husers : usersStage remote now progress fs₀ with e | ⟨users, c₁, fs₁⟩
    · simp [mainModel, hload, husers] at h
    · rcases hchan : channelsStage remote now progress users fs₁ with
        ⟨e, n⟩ | ⟨chans, c₂, fs₂⟩
      · simp [mainModel, hload, husers, hchan] at h
      · have hfs : (mainModel remote now fs₀).fs (progress_path now) =
            none := by
          simp [mainModel, hload, husers, hchan, cleanup_progress]
        have hload2 : load_progress now ((mainModel remote now fs₀).fs) =
            .ok {} := by
          simp [load_progress, hfs]
        exact ⟨hload2, mainModel_calls_pos remote now _ hload2⟩

/-- Witness for the amended C8: the concrete completed run of
`remoteW`. -/
theorem rerun_after_completion_refetches_witness :
    load_progress "20250101_000000"
      ((mainModel remoteW "20250101_000000" emptyFS).fs) = .ok {} ∧
    1 ≤ (mainModel remoteW "20250101_000000"
      ((mainModel remoteW "20250101_000000" emptyFS).fs)).calls :=
  rerun_after_completion_refetches remoteW "20250101_000000" emptyFS rfl

lemma dm_channel_name_error_kinds (users : List User) (x : RawChannel)
    (e : PyErr) (h : dm_channel_name users x = .error e) :
    e = PyErr.indexError ∨ e = PyErr.keyError := by
  cases e
  · exact Or.inl rfl
  · exact Or.inr rfl

lemma dm_channel_name_fails (users : List User) (x : RawChannel)
    (hu : x.user = none ∨ ∀ y ∈ users, some y.id ≠ x.user) :
    ∃ e, dm_channel_name users x = .error e := by
  cases users with
  | nil =>
    refine ⟨.indexError, ?_⟩
    cases x.user <;> rfl
  | cons y ys =>
    cases hx : x.user with
    | none => exact ⟨.keyError, by simp [dm_channel_name, hx]⟩
    | some u =>
      rcases hu with hu | hu
      · rw [hx] at hu; cases hu
      · have hf : (y :: ys).filter (fun z => decide (z.id = u)) = [] := by
          rw [List.filter_eq_nil_iff]
          intro z hz
          simp only [decide_eq_true_eq]
          intro he
          exact hu z hz (by rw [hx, he])
        exact ⟨.indexError, by simp [dm_channel_name, hx, hf]⟩

lemma synthChannels_error_of_im (users : List User) :
    ∀ (raw : List RawChannel) (x : RawChannel), x ∈ raw →
      x.is_im = true →
      (∃ e0, dm_channel_name users x = .error e0) →
      ∃ e, synthChannels users raw = .error e ∧
        (e = PyErr.indexError ∨ e = PyErr.keyError) := by
  intro raw
  induction raw with
  | nil => intro x hx; cases hx
  | cons y rest ih =>
    intro x hx him hfail
    by_cases hy : y.is_im = true
    · cases hdm : dm_channel_name users y with
      | error ey =>
        refine ⟨ey, ?_, dm_channel_name_error_kinds users y ey hdm⟩
        simp [synthChannels, hy, hdm, Except.map]
      | ok ny =>
        have hxr : x ∈ rest := by
          rcases List.mem_cons.mp hx with rfl | hr
          · obtain ⟨e0, he0⟩ := hfail
            rw [hdm] at he0
            cases he0
          · exact hr
        obtain ⟨e, he, hk⟩ := ih x hxr him hfail
        exact ⟨e, by simp [synthChannels, hy, hdm, he, Except.map], hk⟩
    · have hxr : x ∈ rest := by
        rcases List.mem_cons.mp hx with rfl | hr
        · exact absurd him hy
        · exact hr
      obtain ⟨e, he, hk⟩ := ih x hxr him hfail
      exact ⟨e, by simp [synthChannels, hy, he], hk⟩

/-- C10: if the channel listing contains a direct-message channel
whose `user` field is absent or matches no fetched user id, the list
comprehension of `get_accessible_channels` raises an uncaught
`IndexError` or `KeyError`; on a fresh run (empty checkpoint) this
propagates out of `main` before the per-channel loop starts, so the
run aborts with no channel processed. -/
theorem dm_name_synthesis_aborts (users : List User)
    (raw : List RawChannel) (x : RawChannel)
    (hx : x ∈ raw) (him : x.is_im = true)
    (hu : x.user = none ∨ ∀ y ∈ users, some y.id ≠ x.user) :
    (∃ e, synthChannels users raw = .error e ∧
      (e = PyErr.indexError ∨ e = PyErr.keyError)) ∧
    ∀ (remote : Remote) (now : String) (fs : FS) (n : Nat),
      load_progress now fs = .ok {} →
      remote.usersResp = users →
      paginate remote.channelPages = some (raw, n) →
      (mainModel remote now fs).channelsProcessed = [] ∧
      (mainModel remote now fs).error ≠ none := by
  have hsynth := synthChannels_error_of_im users raw x hx him
    (dm_channel_name_fails users x hu)
  refine ⟨hsynth, ?_⟩
  intro remote now fs n hload husers hpag
  obtain ⟨e, he, _⟩ := hsynth
  have husersStage : usersStage remote now {} fs =
      .ok (remote.usersResp, 1,
        save_progress now { users_fetched := true }
          (save_users now remote.usersResp fs)) := rfl
  have hchan : channelsStage remote now {} remote.usersResp
      (save_progress now { users_fetched := true }
        (save_users now remote.usersResp fs)) =
      .error (pyErrName e, n) := by
    simp only [channelsStage, hpag, husers, he]
    rfl
  constructor <;> simp [mainModel, hload, husersStage, hchan]

/-- The unmatched direct-message channel of the C10 witness. -/
def dmW : RawChannel := { id := "D1", is_im := true, user := some "U9" }

/-- Witness for C10: a listing with the single DM channel `dmW` and no
fetched users. -/
theorem dm_name_synthesis_aborts_witness :
    (∃ e, synthChannels [] [dmW] = .error e ∧
      (e = PyErr.indexError ∨ e = PyErr.keyError)) ∧
    ∀ (remote : Remote) (now : String) (fs : FS) (n : Nat),
      load_progress now fs = .ok {} →
      remote.usersResp = [] →
      paginate remote.channelPages = some ([dmW], n) →
      (mainModel remote now fs).channelsProcessed = [] ∧
      (mainModel remote now fs).error ≠ none :=
  dm_name_synthesis_aborts [] [dmW] dmW (by decide) rfl
    (Or.inr (by decide))

end SlackDataExport
